import Mathlib

/-!
Verification of the medlaunch-challenge expense-report backend.

This file gives a shallow embedding, in Lean 4, of the report aggregate
lifecycle of the repository: the data model (`src/models/report.ts`), the
in-memory repository (`src/repositories/globalRepository.ts`), the view
shaper (`src/services/reportService.ts`), the background metrics worker
(`updateReportView` in the model file variant), and the HTTP controller
(`src/controllers/reportController.ts`).  Timestamps are modelled as natural
numbers (standing for the millisecond value of the ISO string, i.e. the
result of `Date.parse`), monetary amounts as integers, and the store as an
association list from report ids to reports.  Fallible operations return
`Except ApiError _` paired with the resulting store, so that the absence of
writes on a failure path is expressible as equality of stores.
-/

/-- `type ReportStatus = 'DRAFT' | 'SUBMITTED' | 'APPROVED' | 'REJECTED'`. -/
inductive ReportStatus
  | DRAFT
  | SUBMITTED
  | APPROVED
  | REJECTED
deriving DecidableEq, Repr

/-- `type Role = 'USER' | 'ADMIN'` from `src/models/user.ts`. -/
inductive Role
  | USER
  | ADMIN
deriving DecidableEq, Repr

/-- Access level of a viewer entry: `'VIEW' | 'EDIT' | 'COMMENT'`. -/
inductive Access
  | VIEW
  | EDIT
  | COMMENT
deriving DecidableEq, Repr

/-- Comment priority: `'low' | 'normal' | 'high'`. -/
inductive Priority
  | low
  | normal
  | high
deriving DecidableEq, Repr

/-- A `viewers` array element: `{ userId: string; access: 'VIEW type' }`. -/
structure Viewer where
  userId : String
  access : Access
deriving DecidableEq, Repr

/-- `interface ReportEntry`.  `incurredAt` is stored as the parsed timestamp
(`Date.parse` of the ISO string); `none` models an absent value. -/
structure ReportEntry where
  id : String
  description : Option String
  amount : Int
  category : Option String
  incurredAt : Option Nat
  receiptAttached : Option Bool
deriving DecidableEq, Repr

/-- `interface ReportComment`. -/
structure ReportComment where
  id : String
  authorId : String
  text : String
  createdAt : Nat
  priority : Option Priority
deriving DecidableEq, Repr

/-- `interface ReportAttachment`. -/
structure ReportAttachment where
  id : String
  filename : String
  mimetype : String
  size : Nat
  storagePath : String
  uploadedAt : Nat
  owner : String
deriving DecidableEq, Repr

/-- A value of `Record<string, string | number | boolean>`. -/
inductive MetaValue
  | str (s : String)
  | num (n : Int)
  | bool (b : Bool)
deriving DecidableEq, Repr

/-- `type Metadata = Record<string, string | number | boolean>`, as a
key-value list. -/
abbrev Metadata := List (String × MetaValue)

/-- `interface Report` (the aggregate root).  `budgetOverride` is optional in
TypeScript but every creation path sets it (`budgetOverride || false`), so it
is modelled as a plain `Bool`.  Optional collections keep their optionality:
`none` models an absent field. -/
structure Report where
  id : String
  title : String
  ownerId : String
  department : Option String
  createdAt : Nat
  updatedAt : Nat
  version : Nat
  budgetCap : Int
  budgetOverride : Bool
  entries : List ReportEntry
  viewers : Option (List Viewer)
  status : ReportStatus
  comments : Option (List ReportComment)
  metadata : Option Metadata
  attachments : Option (List ReportAttachment)
deriving DecidableEq, Repr

/-- Sum of the amounts of a list of entries, as in
`entries.reduce((s, e) => s + (e.amount ?? 0), 0)`. -/
def totalAmountOf (entries : List ReportEntry) : Int :=
  entries.foldl (fun s e => s + e.amount) 0

/-- `computeTotalAmount` from `src/services/reportService.ts`:
`(report.entries || []).reduce((s, e) => s + (e.amount ?? 0), 0)`. -/
def computeTotalAmount (report : Report) : Int :=
  totalAmountOf report.entries

/-- The error kinds the controller and repository return, one constructor per
distinct rejection site (the HTTP codes are given by `statusCode`). -/
inductive ApiError
  | MissingFields
  | OwnerRequired
  | ForbiddenSelfOnly
  | ForbiddenOverride
  | ForbiddenNotOwner
  | ForbiddenOwnerChange
  | ForbiddenAccess
  | NotFound
  | MissingVersion
  | VersionMismatch
  | BudgetExceeded
  | MissingField
deriving DecidableEq, Repr

/-- The HTTP status the controller maps each error kind to
(`res.status(...)` at the corresponding rejection site). -/
def statusCode : ApiError → Nat
  | .MissingFields => 400
  | .OwnerRequired => 400
  | .ForbiddenSelfOnly => 403
  | .ForbiddenOverride => 403
  | .ForbiddenNotOwner => 403
  | .ForbiddenOwnerChange => 403
  | .ForbiddenAccess => 403
  | .NotFound => 404
  | .MissingVersion => 400
  | .VersionMismatch => 409
  | .BudgetExceeded => 400
  | .MissingField => 400

/-- The in-memory report store (`InMemoryReportRepository.store`, a
`Map<string, Report>`), as an association list in insertion order. -/
abbrev Store := List (String × Report)

/-- `this.store.get(id) ?? null` (also `findById`). -/
def findReport (store : Store) (id : String) : Option Report :=
  (store.find? (fun p => p.1 == id)).map (fun p => p.2)

/-- `this.store.set(id, r)`: replace the binding of `id` in place if present,
otherwise append it. -/
def setReport : Store → String → Report → Store
  | [], id, r => [(id, r)]
  | p :: tl, id, r =>
    if p.1 == id then (id, r) :: tl else p :: setReport tl id r

/-- `Partial<Report>` restricted to the fields a mutation may carry; `none`
models an absent key (the controller only adds keys whose payload field is
defined, so spreading a partial equals `getD` on each field). -/
structure ReportPatch where
  title : Option String
  department : Option String
  budgetCap : Option Int
  budgetOverride : Option Bool
  entries : Option (List ReportEntry)
  viewers : Option (List Viewer)
  status : Option ReportStatus
  ownerId : Option String
  comments : Option (List ReportComment)
  attachments : Option (List ReportAttachment)
deriving DecidableEq, Repr

/-- The empty partial update (an object literal with no keys). -/
def ReportPatch.empty : ReportPatch :=
  ⟨none, none, none, none, none, none, none, none, none, none⟩

/-- `{ ...existing, ...updated, version: (existing.version ?? 0) + 1,
updatedAt: now }` — the merge performed by both
`InMemoryReportRepository.update` and the model-level `updateReport`. -/
def mergeReport (existing : Report) (updated : ReportPatch) (now : Nat) :
    Report :=
  { id := existing.id
    title := updated.title.getD existing.title
    ownerId := updated.ownerId.getD existing.ownerId
    department := (updated.department).orElse (fun _ => existing.department)
    createdAt := existing.createdAt
    updatedAt := now
    version := existing.version + 1
    budgetCap := updated.budgetCap.getD existing.budgetCap
    budgetOverride := updated.budgetOverride.getD existing.budgetOverride
    entries := updated.entries.getD existing.entries
    viewers := (updated.viewers).orElse (fun _ => existing.viewers)
    status := updated.status.getD existing.status
    comments := (updated.comments).orElse (fun _ => existing.comments)
    metadata := existing.metadata
    attachments :=
      (updated.attachments).orElse (fun _ => existing.attachments) }

/-- `InMemoryReportRepository.update(id, updated, expectedVersion?)` from
`src/repositories/globalRepository.ts` (the model-level `updateReport` in
`src/models/report.ts` has the identical logic): look the report up, throw
`NotFound` if absent, throw `VersionMismatch` iff an `expectedVersion` was
supplied and differs from the stored version, otherwise merge, bump the
version by one, refresh `updatedAt` and write back. -/
def repoUpdate (store : Store) (id : String) (updated : ReportPatch)
    (expectedVersion : Option Nat) (now : Nat) :
    Except ApiError Report × Store :=
  match findReport store id with
  | none => (.error .NotFound, store)
  | some existing =>
    if expectedVersion.isSome && expectedVersion != some existing.version then
      (.error .VersionMismatch, store)
    else
      let merged := mergeReport existing updated now
      (.ok merged, setReport store id merged)

/-- `createReport` from `src/models/report.ts`: builds the record at version 1
(`budgetOverride: budgetOverride || false`, `entries: entries || []`,
`viewers: viewers || []`, `status: status || 'DRAFT'`) with fresh timestamps;
the caller adds it to the store. -/
def createReport (title ownerId : String) (budgetCap : Int)
    (department : Option String) (entries : Option (List ReportEntry))
    (viewers : Option (List Viewer)) (status : Option ReportStatus)
    (budgetOverride : Option Bool) (now : Nat) (newId : String) : Report :=
  { id := newId
    title := title
    ownerId := ownerId
    department := department
    createdAt := now
    updatedAt := now
    version := 1
    budgetCap := budgetCap
    budgetOverride := budgetOverride.getD false
    entries := entries.getD []
    viewers := some (viewers.getD [])
    status := status.getD .DRAFT
    comments := none
    metadata := none
    attachments := none }

/-- The authenticated caller (`req.user`, a decoded JWT payload). -/
structure UserCtx where
  id : String
  role : Role
deriving DecidableEq, Repr

/-- The typed body of a `POST /reports` request (presence of `title` and
numeric `budgetCap` is the controller's 400 precondition, enforced here by
the types; `entries` not being an array is modelled as `none`). -/
structure CreatePayload where
  title : String
  budgetCap : Int
  ownerId : Option String
  department : Option String
  entries : Option (List ReportEntry)
  viewers : Option (List Viewer)
  status : Option ReportStatus
  budgetOverride : Option Bool
deriving DecidableEq, Repr

/-- `let ownerId = payload.ownerId; if (!ownerId && user) ownerId = user.id`:
an absent or empty (falsy) `payload.ownerId` falls back to the caller id. -/
def ownerIdOf (payload : CreatePayload) (user : UserCtx) : String :=
  match payload.ownerId with
  | some o => if o.isEmpty then user.id else o
  | none => user.id

/-- `createReport` from `src/controllers/reportController.ts`: resolve the
owner, reject non-admin creation for someone else, reject a non-admin
setting `budgetOverride` to `true`, run the Strict Budget Gate when the
requested initial status is `SUBMITTED` (total of the payload entries
strictly above the payload cap and no override), then build the record via
the model-level `createReport` and add it to the store. -/
def createReportController (store : Store) (payload : CreatePayload)
    (user : UserCtx) (now : Nat) (newId : String) :
    Except ApiError Report × Store :=
  let ownerId := ownerIdOf payload user
  if ownerId.isEmpty then (.error .OwnerRequired, store)
  else if user.role == .USER && ownerId != user.id then
    (.error .ForbiddenSelfOnly, store)
  else if payload.budgetOverride == some true && user.role != .ADMIN then
    (.error .ForbiddenOverride, store)
  else
    let initialEntries := payload.entries.getD []
    let initialTotal := totalAmountOf initialEntries
    let initialBudgetOverride := payload.budgetOverride.getD false
    if payload.status == some .SUBMITTED &&
        decide (initialTotal > payload.budgetCap) && !initialBudgetOverride then
      (.error .BudgetExceeded, store)
    else
      let rec_ := createReport payload.title ownerId payload.budgetCap
        payload.department (some initialEntries)
        (some (payload.viewers.getD [])) (some (payload.status.getD .DRAFT))
        (some initialBudgetOverride) now newId
      (.ok rec_, setReport store rec_.id rec_)

/-- The typed body of a `PUT /reports/:id` request.  `version` is the body
field consulted when no `If-Match` header is present. -/
structure UpdatePayload where
  title : Option String
  department : Option String
  budgetCap : Option Int
  budgetOverride : Option Bool
  entries : Option (List ReportEntry)
  viewers : Option (List Viewer)
  status : Option ReportStatus
  ownerId : Option String
  version : Option Nat
deriving DecidableEq, Repr

/-- Lines 190-196 of the controller: the expected version is the parsed
`If-Match` header when present, otherwise the numeric body `version`. -/
def expectedVersionOf (ifMatch : Option Nat) (bodyVersion : Option Nat) :
    Option Nat :=
  match ifMatch with
  | some v => some v
  | none => bodyVersion

/-- `updateReport` from `src/controllers/reportController.ts`: load (404 if
absent); a `USER` may only update their own report; only an `ADMIN` may set
`budgetOverride` to `true`; determine the expected version from `If-Match`
or the body and reject with `MissingVersion` if neither is given; build the
whitelisted partial (only an `ADMIN` may change `ownerId`); when the stored
status is `DRAFT` and the proposed status is `SUBMITTED`, run the Strict
Budget Gate on the post-merge entries, cap and override; finally delegate to
`repoUpdate` with the expected version, which performs the version check and
the write. -/
def updateReportController (store : Store) (id : String)
    (payload : UpdatePayload) (ifMatch : Option Nat) (user : UserCtx)
    (now : Nat) : Except ApiError Report × Store :=
  match findReport store id with
  | none => (.error .NotFound, store)
  | some existing =>
    if user.role == .USER && existing.ownerId != user.id then
      (.error .ForbiddenNotOwner, store)
    else if payload.budgetOverride == some true && user.role != .ADMIN then
      (.error .ForbiddenOverride, store)
    else
      match expectedVersionOf ifMatch payload.version with
      | none => (.error .MissingVersion, store)
      | some ev =>
        if payload.ownerId.isSome && user.role != .ADMIN then
          (.error .ForbiddenOwnerChange, store)
        else
          let updated : ReportPatch :=
            { title := payload.title
              department := payload.department
              budgetCap := payload.budgetCap
              budgetOverride := payload.budgetOverride
              entries := payload.entries
              viewers := payload.viewers
              status := payload.status
              ownerId := payload.ownerId
              comments := none
              attachments := none }
          let willChangeToSubmitted :=
            existing.status == .DRAFT && updated.status == some .SUBMITTED
          if willChangeToSubmitted then
            let entriesToCheck := updated.entries.getD existing.entries
            let budgetCapToCheck := updated.budgetCap.getD existing.budgetCap
            let overrideToCheck :=
              updated.budgetOverride.getD existing.budgetOverride
            let total :=
              computeTotalAmount { existing with entries := entriesToCheck }
            if decide (total > budgetCapToCheck) && !overrideToCheck then
              (.error .BudgetExceeded, store)
            else repoUpdate store id updated (some ev) now
          else repoUpdate store id updated (some ev) now

/-- `addComment` from `src/controllers/reportController.ts`: require a
non-empty `text`; load (404 if absent); allow admins, the owner, and viewers
with `COMMENT` or `EDIT` access; append the new comment and write through
`repoUpdate` with NO expected version. -/
def addCommentController (store : Store) (id : String) (text : String)
    (priority : Option Priority) (user : UserCtx) (now : Nat)
    (newCommentId : String) : Except ApiError Report × Store :=
  if text.isEmpty then (.error .MissingField, store)
  else
    match findReport store id with
    | none => (.error .NotFound, store)
    | some existing =>
      let allowed :=
        user.role == .ADMIN || existing.ownerId == user.id ||
          (existing.viewers.getD []).any (fun v =>
            v.userId == user.id && (v.access == .COMMENT || v.access == .EDIT))
      if !allowed then (.error .ForbiddenAccess, store)
      else
        let newComment : ReportComment :=
          { id := newCommentId
            authorId := user.id
            text := text
            createdAt := now
            priority := some (priority.getD .normal) }
        let updatedComments := existing.comments.getD [] ++ [newComment]
        repoUpdate store id
          { ReportPatch.empty with comments := some updatedComments } none now

/-- Stable insertion of `x` into `l`: `x` goes before the first element `y`
with `le x y`.  Used to model the guaranteed-stable `Array.prototype.sort`. -/
def insertLe (le : α → α → Bool) (x : α) : List α → List α
  | [] => [x]
  | y :: ys => if le x y then x :: y :: ys else y :: insertLe le x ys

/-- Stable sort by the boolean total preorder `le` (insertion sort).  For a
JavaScript comparator `c`, taking `le a b := c(a, b) <= 0` yields exactly the
list `arr.slice().sort(c)` produces, since both sorts are stable. -/
def sortByLe (le : α → α → Bool) : List α → List α
  | [] => []
  | x :: xs => insertLe le x (sortByLe le xs)

/-- `increasing | decreasing | stable | unknown`. -/
inductive Trend
  | increasing
  | decreasing
  | stable
  | unknown
deriving DecidableEq, Repr

/-- The trend indicator of `toReportView` (and of `updateReportView`): sort
the entries by `incurredAt` ascending (`Date.parse`, absent dates count as
0), then compare the amounts of the last two entries. -/
def trendOf (entries : List ReportEntry) : Trend :=
  let entriesSortedByDate :=
    sortByLe (fun a b => decide (a.incurredAt.getD 0 ≤ b.incurredAt.getD 0))
      entries
  match entriesSortedByDate.reverse with
  | lastE :: prevE :: _ =>
    if lastE.amount > prevE.amount then .increasing
    else if lastE.amount < prevE.amount then .decreasing
    else .stable
  | _ => .unknown

/-- `averageEntry = entryCount ? totalAmount / entryCount : 0` (exact
rational division standing for the JavaScript float division). -/
def averageEntryOf (entries : List ReportEntry) : Rat :=
  if entries.length = 0 then 0
  else ((totalAmountOf entries : Int) : Rat) / ((entries.length : Nat) : Rat)

/-- The `metrics` object of `toReportView`. -/
structure Metrics where
  totalAmount : Int
  isOverBudget : Bool
  entryCount : Nat
  averageEntry : Rat
  trend : Trend
deriving DecidableEq, Repr

/-- `interface ViewOptions` from `src/services/reportService.ts`
(`include` is a Lean keyword, hence the field name `includeSections`). -/
structure ViewOptions where
  includeSections : Option (List String)
  compact : Bool
  entriesPage : Option Int
  entriesSize : Option Int
  entriesSort : Option String
  entriesMinAmount : Option Int
deriving DecidableEq, Repr

/-- The result of `paginate` in `src/services/reportService.ts`. -/
structure Paginated (α : Type) where
  items : List α
  page : Int
  size : Int
  total : Nat
deriving DecidableEq, Repr

/-- `paginate(arr, page = 1, size = 10)`: clamp page and size up to 1, then
`arr.slice((p - 1) * s, (p - 1) * s + s)`; `total` is the length of the
incoming (already filtered and sorted) array. -/
def paginate (arr : List α) (page : Int) (size : Int) : Paginated α :=
  let total := arr.length
  let p := max 1 page
  let s := max 1 size
  let start := (p - 1) * s
  { items := (arr.drop start.toNat).take s.toNat
    page := p
    size := s
    total := total }

/-- The entry filter of `toReportView`:
`entries.filter((e) => (e.amount ?? 0) >= (options.entriesMinAmount || 0))`,
applied only when `entriesMinAmount` is defined. -/
def filterEntries (entries : List ReportEntry) (minAmount : Option Int) :
    List ReportEntry :=
  match minAmount with
  | none => entries
  | some m => entries.filter (fun e => m ≤ e.amount)

/-- The entry sort of `toReportView`: one in-place stable sort per
recognised `entriesSort` value, otherwise the list is left alone (dates
absent sort as 0, i.e. epoch zero). -/
def sortEntries (entries : List ReportEntry) (sortOpt : Option String) :
    List ReportEntry :=
  match sortOpt with
  | none => entries
  | some s =>
    if s == "amount_desc" then
      sortByLe (fun a b => decide (b.amount ≤ a.amount)) entries
    else if s == "amount_asc" then
      sortByLe (fun a b => decide (a.amount ≤ b.amount)) entries
    else if s == "date_desc" then
      sortByLe (fun a b => decide (b.incurredAt.getD 0 ≤ a.incurredAt.getD 0))
        entries
    else if s == "date_asc" then
      sortByLe (fun a b => decide (a.incurredAt.getD 0 ≤ b.incurredAt.getD 0))
        entries
    else entries

/-- The `entriesPagination` metadata attached to the rich view. -/
structure PaginationMeta where
  page : Int
  size : Int
  total : Nat
deriving DecidableEq, Repr

/-- The compact flattened summary returned when `options.compact` is set. -/
structure CompactView where
  id : String
  title : String
  ownerId : String
  department : Option String
  status : ReportStatus
  totalAmount : Int
  isOverBudget : Bool
  entryCount : Nat
  averageEntry : Rat
  trend : Trend
  metadataSummary : Metadata
deriving DecidableEq, Repr

/-- The rich hierarchical view: the spread of the report itself plus the
computed fields.  Sections that the code `delete`s are `none`; `metrics`
stays an `Option` because the claim under test speaks of its absence, but
the code assigns it in the initial object literal and never deletes it. -/
structure RichView where
  report : Report
  totalAmount : Int
  isOverBudget : Bool
  metrics : Option Metrics
  entries : Option (List ReportEntry)
  comments : Option (List ReportComment)
  metadata : Option Metadata
  entriesPagination : Option PaginationMeta
deriving DecidableEq, Repr

/-- The untyped (`any`) return value of `toReportView`: a compact summary or
the rich hierarchical view. -/
inductive ShapedView
  | compact (v : CompactView)
  | rich (v : RichView)
deriving DecidableEq, Repr

/-- `toReportView(report, opts?)` from `src/services/reportService.ts`:
compute the metrics (total, over-budget flag, count, average, trend), then
filter, sort and paginate the entries (pagination parameters are
`entriesPage`, 1-based, default 1, and `entriesSize`, default 25; the
paginated result is only built when the `entries` section is included);
return the compact summary when `options.compact`, otherwise the rich view
in which non-included sections `entries`, `comments` and `metadata` are
deleted while `metrics` — assigned in the initial object literal — is only
ever re-assigned, never deleted. -/
def toReportView (report : Report) (opts : ViewOptions) : ShapedView :=
  let includeSections :=
    opts.includeSections.getD ["entries", "comments", "metadata", "metrics"]
  let totalAmount := computeTotalAmount report
  let isOverBudget := decide (totalAmount > report.budgetCap)
  let entryCount := report.entries.length
  let averageEntry := averageEntryOf report.entries
  let trend := trendOf report.entries
  let metrics : Metrics :=
    { totalAmount := totalAmount
      isOverBudget := isOverBudget
      entryCount := entryCount
      averageEntry := averageEntry
      trend := trend }
  let entries1 := filterEntries report.entries opts.entriesMinAmount
  let entries2 := sortEntries entries1 opts.entriesSort
  let entriesPageResult : Option (Paginated ReportEntry) :=
    if includeSections.contains "entries" then
      some (paginate entries2 (opts.entriesPage.getD 1) (opts.entriesSize.getD 25))
    else none
  if opts.compact then
    .compact
      { id := report.id
        title := report.title
        ownerId := report.ownerId
        department := report.department
        status := report.status
        totalAmount := totalAmount
        isOverBudget := isOverBudget
        entryCount := entryCount
        averageEntry := averageEntry
        trend := trend
        metadataSummary := report.metadata.getD [] }
  else
    .rich
      { report := report
        totalAmount := totalAmount
        isOverBudget := isOverBudget
        metrics := some metrics
        entries :=
          if includeSections.contains "entries" then
            some (match entriesPageResult with
              | some pr => pr.items
              | none => report.entries)
          else none
        comments :=
          if includeSections.contains "comments" then
            some (report.comments.getD [])
          else none
        metadata :=
          if includeSections.contains "metadata" then
            some (report.metadata.getD [])
          else none
        entriesPagination :=
          entriesPageResult.map (fun pr =>
            { page := pr.page, size := pr.size, total := pr.total }) }

/-- The metrics computation of `updateReportView` (the background worker in
the model file): identical to the one in `toReportView` EXCEPT that here
`isOverBudget = totalAmount > report.budgetCap && !report.budgetOverride`. -/
def updateReportViewMetrics (report : Report) : Metrics :=
  let totalAmount := totalAmountOf report.entries
  let isOverBudget :=
    decide (totalAmount > report.budgetCap) && !report.budgetOverride
  { totalAmount := totalAmount
    isOverBudget := isOverBudget
    entryCount := report.entries.length
    averageEntry := averageEntryOf report.entries
    trend := trendOf report.entries }

/-- The view options the controller's `getReport` builds from the query
string (lines 120-131): `include` is split on commas, `compact` comes from
`compact=1`, and the parsed `offset` and `limit` numbers are stored under
the keys `offset` and `limit` — keys `toReportView` never reads (it reads
`entriesPage` and `entriesSize`), so they are dropped here. -/
def viewOptionsFromQuery (includeParam : Option (List String))
    (compactParam : Bool) (offset : Option Int) (limit : Option Int)
    (entriesSort : Option String) (entriesMinAmount : Option Int) :
    ViewOptions :=
  { includeSections := includeParam
    compact := compactParam
    entriesPage := none
    entriesSize := none
    entriesSort := entriesSort
    entriesMinAmount := entriesMinAmount }

/-- After `setReport`, looking the same id up returns the written report. -/
theorem findReport_setReport (store : Store) (id : String) (r : Report) :
    findReport (setReport store id r) id = some r := by
  induction store with
  | nil => simp [setReport, findReport, List.find?]
  | cons p tl ih =>
    by_cases h : p.1 = id
    · simp [setReport, findReport, List.find?, h]
    · unfold setReport
      rw [if_neg (by simp [h])]
      unfold findReport at ih ⊢
      rw [List.find?_cons_of_neg _ (by simp [h])]
      exact ih

/-- `repoUpdate` can only fail with `NotFound` or `VersionMismatch`. -/
theorem repoUpdate_error_cases (store : Store) (id : String)
    (u : ReportPatch) (ev : Option Nat) (now : Nat) (e : ApiError)
    (h : (repoUpdate store id u ev now).1 = .error e) :
    e = .NotFound ∨ e = .VersionMismatch := by
  unfold repoUpdate at h
  split at h
  · simp only [Except.error.injEq] at h
    exact .inl h.symm
  · split at h
    · simp only [Except.error.injEq] at h
      exact .inr h.symm
    · simp at h

/-- `repoUpdate` never reports a budget violation. -/
theorem repoUpdate_fst_ne_budgetExceeded (store : Store) (id : String)
    (u : ReportPatch) (ev : Option Nat) (now : Nat) :
    (repoUpdate store id u ev now).1 ≠ .error .BudgetExceeded := by
  intro h
  rcases repoUpdate_error_cases store id u ev now _ h with h' | h' <;> simp at h'

/-- C1 (budget gate totality): a create requesting initial status
`SUBMITTED`, and an update moving a stored `DRAFT` report to `SUBMITTED`,
are rejected with `BudgetExceeded` exactly when the total amount of the
proposed (post-merge) entries is strictly greater than the proposed cap and
the proposed `budgetOverride` is false; in particular, with the override
true the transition is never rejected by the gate.  The hypotheses state
that the caller passes the preceding owner/role preconditions of the
controller. -/
theorem budget_gate_totality :
    (∀ (store : Store) (payload : CreatePayload) (user : UserCtx)
        (now : Nat) (newId : String),
      (ownerIdOf payload user).isEmpty = false →
      (user.role == Role.USER && ownerIdOf payload user != user.id) = false →
      (payload.budgetOverride == some true && user.role != Role.ADMIN) = false →
      ((createReportController store payload user now newId).1
          = .error .BudgetExceeded ↔
        payload.status = some .SUBMITTED ∧
        totalAmountOf (payload.entries.getD []) > payload.budgetCap ∧
        payload.budgetOverride.getD false = false))
    ∧
    (∀ (store : Store) (id : String) (payload : UpdatePayload)
        (ifMatch : Option Nat) (user : UserCtx) (now : Nat)
        (existing : Report),
      findReport store id = some existing →
      (user.role == Role.USER && existing.ownerId != user.id) = false →
      (payload.budgetOverride == some true && user.role != Role.ADMIN) = false →
      (expectedVersionOf ifMatch payload.version).isSome = true →
      (payload.ownerId.isSome && user.role != Role.ADMIN) = false →
      ((updateReportController store id payload ifMatch user now).1
          = .error .BudgetExceeded ↔
        existing.status = .DRAFT ∧ payload.status = some .SUBMITTED ∧
        totalAmountOf (payload.entries.getD existing.entries) >
          payload.budgetCap.getD existing.budgetCap ∧
        payload.budgetOverride.getD existing.budgetOverride = false)) := by
  constructor
  · intro store payload user now newId h0 h1 h2
    unfold createReportController
    simp only [h0, h1, h2, Bool.false_eq_true, if_false]
    by_cases hc : (payload.status == some ReportStatus.SUBMITTED &&
        decide (totalAmountOf (payload.entries.getD []) > payload.budgetCap) &&
        !(payload.budgetOverride.getD false)) = true
    · rw [if_pos hc]
      simp only [Bool.and_eq_true, beq_iff_eq, decide_eq_true_eq,
        Bool.not_eq_true'] at hc
      simp [hc.1.1, hc.1.2, hc.2]
    · rw [if_neg hc]
      simp only [Bool.and_eq_true, beq_iff_eq, decide_eq_true_eq,
        Bool.not_eq_true'] at hc
      constructor
      · intro habs
        simp at habs
      · intro hrhs
        exact absurd ⟨⟨hrhs.1, hrhs.2.1⟩, hrhs.2.2⟩ hc
  · intro store id payload ifMatch user now existing hfind h1 h2 hv h4
    obtain ⟨ev, hev⟩ := Option.isSome_iff_exists.mp hv
    unfold updateReportController
    simp only [hfind, h1, h2, hev, h4, Bool.false_eq_true, if_false]
    by_cases hg : (existing.status == ReportStatus.DRAFT &&
        payload.status == some ReportStatus.SUBMITTED) = true
    · rw [if_pos hg]
      simp only [Bool.and_eq_true, beq_iff_eq] at hg
      by_cases hd : (decide (computeTotalAmount
            { existing with entries := payload.entries.getD existing.entries }
            > payload.budgetCap.getD existing.budgetCap) &&
          !(payload.budgetOverride.getD existing.budgetOverride)) = true
      · rw [if_pos hd]
        simp only [Bool.and_eq_true, decide_eq_true_eq, Bool.not_eq_true',
          computeTotalAmount] at hd
        simp [hg.1, hg.2, hd.1, hd.2]
      · rw [if_neg hd]
        simp only [Bool.and_eq_true, decide_eq_true_eq, Bool.not_eq_true',
          computeTotalAmount] at hd
        constructor
        · intro habs
          exact absurd habs (repoUpdate_fst_ne_budgetExceeded _ _ _ _ _)
        · intro hrhs
          exact absurd ⟨hrhs.2.2.1, hrhs.2.2.2⟩ hd
    · rw [if_neg hg]
      simp only [Bool.and_eq_true, beq_iff_eq] at hg
      constructor
      · intro habs
        exact absurd habs (repoUpdate_fst_ne_budgetExceeded _ _ _ _ _)
      · intro hrhs
        exact absurd ⟨hrhs.1, hrhs.2.1⟩ hg

/-- With a supplied expected version that differs from the stored one,
`repoUpdate` rejects and leaves the store untouched. -/
theorem repoUpdate_mismatch (store : Store) (id : String) (u : ReportPatch)
    (ev : Nat) (now : Nat) (existing : Report)
    (hfind : findReport store id = some existing)
    (hne : ev ≠ existing.version) :
    repoUpdate store id u (some ev) now = (.error .VersionMismatch, store) := by
  unfold repoUpdate
  simp only [hfind]
  rw [if_pos (by simp [hne])]

/-- With a matching expected version, `repoUpdate` merges and writes. -/
theorem repoUpdate_matching (store : Store) (id : String) (u : ReportPatch)
    (now : Nat) (existing : Report)
    (hfind : findReport store id = some existing) :
    repoUpdate store id u (some existing.version) now =
      (.ok (mergeReport existing u now),
        setReport store id (mergeReport existing u now)) := by
  unfold repoUpdate
  simp only [hfind]
  rw [if_neg (by simp)]

/-- Without an expected version, `repoUpdate` skips the version check and
writes unconditionally. -/
theorem repoUpdate_noVersionCheck (store : Store) (id : String)
    (u : ReportPatch) (now : Nat) (existing : Report)
    (hfind : findReport store id = some existing) :
    repoUpdate store id u none now =
      (.ok (mergeReport existing u now),
        setReport store id (mergeReport existing u now)) := by
  unfold repoUpdate
  simp only [hfind]
  rw [if_neg (by simp)]

/-- The `entries` section of a shaped view (absent on compact views). -/
def ShapedView.entriesField : ShapedView → Option (List ReportEntry)
  | .rich v => v.entries
  | .compact _ => none

/-- The `comments` section of a shaped view (absent on compact views). -/
def ShapedView.commentsField : ShapedView → Option (List ReportComment)
  | .rich v => v.comments
  | .compact _ => none

/-- The `metadata` section of a shaped view (absent on compact views). -/
def ShapedView.metadataField : ShapedView → Option Metadata
  | .rich v => v.metadata
  | .compact _ => none

/-- The `metrics` section of a shaped view (absent on compact views, which
inline the metric fields instead). -/
def ShapedView.metricsField : ShapedView → Option Metrics
  | .rich v => v.metrics
  | .compact _ => none

/-- The `isOverBudget` flag of a shaped view (present in both shapes). -/
def ShapedView.overBudgetFlag : ShapedView → Bool
  | .rich v => v.isOverBudget
  | .compact v => v.isOverBudget

/-- The `entriesPagination` metadata of a shaped view. -/
def ShapedView.paginationField : ShapedView → Option PaginationMeta
  | .rich v => v.entriesPagination
  | .compact _ => none

/-- Sample entry (600 at time 1), mirroring the seeded Team Offsite data. -/
def entryFlights : ReportEntry := ⟨"e1", some "Flights", 600, none, some 1, none⟩

/-- Sample entry (800 at time 2). -/
def entryHotel : ReportEntry := ⟨"e2", some "Hotel", 800, none, some 2, none⟩

/-- Sample entry (300 at time 3). -/
def entryCatering : ReportEntry := ⟨"e3", some "Catering", 300, none, some 3, none⟩

/-- A stored `DRAFT` report at version 1 with entries totalling 1700 against
a cap of 1000, owned by `u1`. -/
def sampleDraft : Report :=
  { id := "r1"
    title := "Team Offsite Q1"
    ownerId := "u1"
    department := some "Engineering"
    createdAt := 0
    updatedAt := 0
    version := 1
    budgetCap := 1000
    budgetOverride := false
    entries := [entryFlights, entryHotel, entryCatering]
    viewers := some []
    status := .DRAFT
    comments := none
    metadata := none
    attachments := none }

/-- The same draft stored at version 2 (for version-mismatch scenarios). -/
def sampleDraftV2 : Report := { sampleDraft with version := 2 }

/-- A stored `SUBMITTED` report at version 1. -/
def sampleSubmitted : Report :=
  { sampleDraft with id := "r3", status := .SUBMITTED }

/-- An administrator caller. -/
def adminUser : UserCtx := ⟨"a1", .ADMIN⟩

/-- The (non-admin) owner of the sample reports. -/
def user1 : UserCtx := ⟨"u1", .USER⟩

/-- A non-admin caller who does not own the sample reports. -/
def user2 : UserCtx := ⟨"u2", .USER⟩

/-- An update payload that only moves the status to `SUBMITTED`, carrying
body version 1. -/
def submitPayload : UpdatePayload :=
  { title := none
    department := none
    budgetCap := none
    budgetOverride := none
    entries := none
    viewers := none
    status := some .SUBMITTED
    ownerId := none
    version := some 1 }

/-- An update payload with no fields at all (in particular no version). -/
def emptyUpdatePayload : UpdatePayload :=
  { title := none
    department := none
    budgetCap := none
    budgetOverride := none
    entries := none
    viewers := none
    status := none
    ownerId := none
    version := none }

deriving instance DecidableEq for Except

/-- Witness for C1: the admin submitting the stored draft (total 1700, cap
1000, no override) passes every earlier guard and is rejected by the gate. -/
theorem budget_gate_totality_witness :
    findReport [("r1", sampleDraft)] "r1" = some sampleDraft ∧
    (adminUser.role == Role.USER && sampleDraft.ownerId != adminUser.id)
      = false ∧
    (submitPayload.budgetOverride == some true && adminUser.role != Role.ADMIN)
      = false ∧
    (expectedVersionOf none submitPayload.version).isSome = true ∧
    (submitPayload.ownerId.isSome && adminUser.role != Role.ADMIN) = false ∧
    (updateReportController [("r1", sampleDraft)] "r1" submitPayload none
        adminUser 7).1 = .error .BudgetExceeded :=
  ⟨by decide, by decide, by decide, by decide, by decide,
    (budget_gate_totality.2 [("r1", sampleDraft)] "r1" submitPayload none
        adminUser 7 sampleDraft (by decide) (by decide) (by decide) (by decide)
        (by decide)).mpr (by decide)⟩

/-- C2 (gate scope): when the stored status is not `DRAFT`, or the proposed
(post-merge) status is not `SUBMITTED`, an update is never rejected with
`BudgetExceeded` — whatever the entries, cap, caller and version supplied. -/
theorem gate_scope (store : Store) (id : String) (payload : UpdatePayload)
    (ifMatch : Option Nat) (user : UserCtx) (now : Nat) :
    (∀ existing, findReport store id = some existing →
      existing.status ≠ .DRAFT ∨
        payload.status.getD existing.status ≠ .SUBMITTED) →
    (updateReportController store id payload ifMatch user now).1 ≠
      .error .BudgetExceeded := by
  intro hscope habs
  unfold updateReportController at habs
  cases hfind : findReport store id with
  | none => simp [hfind] at habs
  | some existing =>
    simp only [hfind] at habs
    split at habs
    · simp at habs
    · split at habs
      · simp at habs
      · split at habs
        · simp at habs
        · split at habs
          · simp at habs
          · split at habs
            · split at habs
              · rename_i hgate _
                simp only [Bool.and_eq_true, beq_iff_eq] at hgate
                rcases hscope existing hfind with hs | hs
                · exact hs hgate.1
                · rw [hgate.2] at hs
                  simp at hs
              · exact repoUpdate_fst_ne_budgetExceeded _ _ _ _ _ habs
            · exact repoUpdate_fst_ne_budgetExceeded _ _ _ _ _ habs

/-- The entry list edit used in the C2 witness: a single huge entry. -/
def bigEditPayload : UpdatePayload :=
  { title := none
    department := none
    budgetCap := none
    budgetOverride := none
    entries := some [⟨"e9", none, 99999, none, none, none⟩]
    viewers := none
    status := none
    ownerId := none
    version := some 1 }

/-- Witness for C2: editing the entries of a `SUBMITTED` report to a total
far above its cap does not produce `BudgetExceeded`. -/
theorem gate_scope_witness :
    (∀ existing, findReport [("r3", sampleSubmitted)] "r3" = some existing →
      existing.status ≠ .DRAFT ∨
        bigEditPayload.status.getD existing.status ≠ .SUBMITTED) ∧
    (updateReportController [("r3", sampleSubmitted)] "r3" bigEditPayload
        none user1 11).1 ≠ .error .BudgetExceeded := by
  have hsc : ∀ existing,
      findReport [("r3", sampleSubmitted)] "r3" = some existing →
      existing.status ≠ .DRAFT ∨
        bigEditPayload.status.getD existing.status ≠ .SUBMITTED := by
    intro existing hex
    simp only [findReport, List.find?] at hex
    rw [show (("r3", sampleSubmitted).1 == "r3") = true from by decide] at hex
    simp only [Option.map_some] at hex
    cases hex
    left
    decide
  exact ⟨hsc, gate_scope [("r3", sampleSubmitted)] "r3" bigEditPayload
    none user1 11 hsc⟩

/-- An update payload with no fields except body version 1. -/
def emptyUpdatePayloadV1 : UpdatePayload :=
  { emptyUpdatePayload with version := some 1 }

/-- Counterexample to C3 as stated: the stored draft is at version 2, the
caller supplies `expectedVersion = 1` (a mismatch), yet the operation
returns `BudgetExceeded`, not `VersionConflict`, because the controller
runs the budget gate before the repository performs the version check. -/
theorem version_conflict_counterexample :
    expectedVersionOf none submitPayload.version = some 1 ∧
    (1 : Nat) ≠ sampleDraftV2.version ∧
    (updateReportController [("r2", sampleDraftV2)] "r2" submitPayload none
        adminUser 9).1 = .error .BudgetExceeded ∧
    (updateReportController [("r2", sampleDraftV2)] "r2" submitPayload none
        adminUser 9).1 ≠ .error .VersionMismatch := by
  exact ⟨by decide, by decide, by decide, by decide⟩

/-- C3 amended: an update presented with an expected version different from
the stored version always performs zero writes (the returned store is the
input store) and always fails; it fails specifically with `VersionMismatch`
(mapped to HTTP 409) provided the earlier guards pass and the budget gate
does not deny first. -/
theorem version_conflict_amended (store : Store) (id : String)
    (payload : UpdatePayload) (ifMatch : Option Nat) (user : UserCtx)
    (now : Nat) (existing : Report) (ev : Nat)
    (hfind : findReport store id = some existing)
    (hev : expectedVersionOf ifMatch payload.version = some ev)
    (hne : ev ≠ existing.version) :
    (updateReportController store id payload ifMatch user now).2 = store ∧
    (∃ e, (updateReportController store id payload ifMatch user now).1 =
      .error e) ∧
    ((user.role == Role.USER && existing.ownerId != user.id) = false →
     (payload.budgetOverride == some true && user.role != Role.ADMIN)
       = false →
     (payload.ownerId.isSome && user.role != Role.ADMIN) = false →
     ¬(existing.status = .DRAFT ∧ payload.status = some .SUBMITTED ∧
        totalAmountOf (payload.entries.getD existing.entries) >
          payload.budgetCap.getD existing.budgetCap ∧
        payload.budgetOverride.getD existing.budgetOverride = false) →
     (updateReportController store id payload ifMatch user now).1 =
       .error .VersionMismatch ∧ statusCode .VersionMismatch = 409) := by
  unfold updateReportController
  simp only [hfind, hev]
  refine ⟨?_, ?_, ?_⟩
  · split
    · rfl
    · split
      · rfl
      · split
        · rfl
        · split
          · split
            · rfl
            · rw [repoUpdate_mismatch store id _ ev now existing hfind hne]
          · rw [repoUpdate_mismatch store id _ ev now existing hfind hne]
  · split
    · exact ⟨_, rfl⟩
    · split
      · exact ⟨_, rfl⟩
      · split
        · exact ⟨_, rfl⟩
        · split
          · split
            · exact ⟨_, rfl⟩
            · rw [repoUpdate_mismatch store id _ ev now existing hfind hne]
              exact ⟨_, rfl⟩
          · rw [repoUpdate_mismatch store id _ ev now existing hfind hne]
            exact ⟨_, rfl⟩
  · intro h1 h2 h4 hngate
    simp only [h1, h2, h4, Bool.false_eq_true, if_false]
    split
    · rename_i hgate
      simp only [Bool.and_eq_true, beq_iff_eq] at hgate
      split
      · rename_i hd
        simp only [Bool.and_eq_true, decide_eq_true_eq, Bool.not_eq_true',
          computeTotalAmount] at hd
        exact absurd ⟨hgate.1, hgate.2, hd.1, hd.2⟩ hngate
      · rw [repoUpdate_mismatch store id _ ev now existing hfind hne]
        exact ⟨rfl, rfl⟩
    · rw [repoUpdate_mismatch store id _ ev now existing hfind hne]
      exact ⟨rfl, rfl⟩

/-- Witness for C3 amended: the owner updating the sample draft stored at
version 2 with expected version 1 gets `VersionMismatch` and no write. -/
theorem version_conflict_amended_witness :
    findReport [("r2", sampleDraftV2)] "r2" = some sampleDraftV2 ∧
    expectedVersionOf none emptyUpdatePayloadV1.version = some 1 ∧
    (1 : Nat) ≠ sampleDraftV2.version ∧
    (updateReportController [("r2", sampleDraftV2)] "r2"
        emptyUpdatePayloadV1 none user1 9).2 = [("r2", sampleDraftV2)] ∧
    (updateReportController [("r2", sampleDraftV2)] "r2"
        emptyUpdatePayloadV1 none user1 9).1 = .error .VersionMismatch := by
  refine ⟨by decide, by decide, by decide, ?_, ?_⟩
  · exact (version_conflict_amended [("r2", sampleDraftV2)] "r2"
      emptyUpdatePayloadV1 none user1 9 sampleDraftV2 1 (by decide) (by decide)
      (by decide)).1
  · exact ((version_conflict_amended [("r2", sampleDraftV2)] "r2"
      emptyUpdatePayloadV1 none user1 9 sampleDraftV2 1 (by decide) (by decide)
      (by decide)).2.2 (by decide) (by decide) (by decide) (by decide)).1

/-- C4 (version monotonicity): every newly created report has version
exactly 1, and every successful repository mutation stores a report whose
version is the previous stored version plus one and whose `updatedAt` is
the mutation timestamp. -/
theorem version_monotonicity :
    (∀ (title ownerId : String) (budgetCap : Int) (department : Option String)
        (entries : Option (List ReportEntry)) (viewers : Option (List Viewer))
        (status : Option ReportStatus) (budgetOverride : Option Bool)
        (now : Nat) (newId : String),
      (createReport title ownerId budgetCap department entries viewers status
        budgetOverride now newId).version = 1)
    ∧
    (∀ (store store2 : Store) (id : String) (u : ReportPatch)
        (ev : Option Nat) (now : Nat) (existing r : Report),
      findReport store id = some existing →
      repoUpdate store id u ev now = (.ok r, store2) →
      r.version = existing.version + 1 ∧ r.updatedAt = now ∧
      findReport store2 id = some r) := by
  constructor
  · intros
    rfl
  · intro store store2 id u ev now existing r hfind hupd
    unfold repoUpdate at hupd
    simp only [hfind] at hupd
    split at hupd
    · simp at hupd
    · simp only [Prod.mk.injEq, Except.ok.injEq] at hupd
      obtain ⟨hr, hs⟩ := hupd
      subst hr
      subst hs
      exact ⟨rfl, rfl, findReport_setReport _ _ _⟩

/-- Witness for C4: mutating the sample draft (stored at version 1) with
expected version 1 stores it back at version 2 with the new timestamp. -/
theorem version_monotonicity_witness :
    findReport [("r1", sampleDraft)] "r1" = some sampleDraft ∧
    repoUpdate [("r1", sampleDraft)] "r1" ReportPatch.empty (some 1) 42 =
      (.ok (mergeReport sampleDraft ReportPatch.empty 42),
        setReport [("r1", sampleDraft)] "r1"
          (mergeReport sampleDraft ReportPatch.empty 42)) ∧
    (mergeReport sampleDraft ReportPatch.empty 42).version =
      sampleDraft.version + 1 ∧
    (mergeReport sampleDraft ReportPatch.empty 42).updatedAt = 42 ∧
    findReport
      (setReport [("r1", sampleDraft)] "r1"
        (mergeReport sampleDraft ReportPatch.empty 42)) "r1" =
      some (mergeReport sampleDraft ReportPatch.empty 42) := by
  refine ⟨by decide, by decide, ?_⟩
  have h := version_monotonicity.2 [("r1", sampleDraft)]
    (setReport [("r1", sampleDraft)] "r1"
      (mergeReport sampleDraft ReportPatch.empty 42))
    "r1" ReportPatch.empty (some 1) 42 sampleDraft
    (mergeReport sampleDraft ReportPatch.empty 42) (by decide) (by decide)
  exact ⟨h.1, h.2.1, h.2.2⟩

/-- Counterexample to C5 as stated: a mutating update call with no
`If-Match` header and no body version, issued by a non-owner `USER`, is
rejected with the ownership `Forbidden`, not with `MissingVersion`, because
the ownership check precedes the version-presence check. -/
theorem missing_version_counterexample :
    expectedVersionOf none emptyUpdatePayload.version = none ∧
    (updateReportController [("r1", sampleDraft)] "r1" emptyUpdatePayload
        none user2 3).1 = .error .ForbiddenNotOwner ∧
    (updateReportController [("r1", sampleDraft)] "r1" emptyUpdatePayload
        none user2 3).1 ≠ .error .MissingVersion := by
  exact ⟨by decide, by decide, by decide⟩

/-- C5 amended: an update supplying no expected version (no `If-Match`
header, no body version) never reaches the store — the operation fails and
performs zero writes — and it is rejected specifically with
`MissingVersion` whenever the report exists and the ownership and override
guards pass. -/
theorem missing_version_amended (store : Store) (id : String)
    (payload : UpdatePayload) (user : UserCtx) (now : Nat)
    (hv : payload.version = none) :
    (updateReportController store id payload none user now).2 = store ∧
    (∃ e, (updateReportController store id payload none user now).1 =
      .error e) ∧
    (∀ existing, findReport store id = some existing →
      (user.role == Role.USER && existing.ownerId != user.id) = false →
      (payload.budgetOverride == some true && user.role != Role.ADMIN)
        = false →
      (updateReportController store id payload none user now).1 =
        .error .MissingVersion) := by
  unfold updateReportController
  cases hfind : findReport store id with
  | none =>
    exact ⟨rfl, ⟨.NotFound, rfl⟩, fun existing hex => absurd hex (by simp)⟩
  | some existing =>
    simp only [hfind]
    have hnone : expectedVersionOf none payload.version = none := by
      rw [hv]
      rfl
    refine ⟨?_, ?_, ?_⟩
    · split
      · rfl
      · split
        · rfl
        · rw [hnone]
    · split
      · exact ⟨_, rfl⟩
      · split
        · exact ⟨_, rfl⟩
        · rw [hnone]
          exact ⟨_, rfl⟩
    · intro e he h1 h2
      cases he
      simp only [h1, h2, Bool.false_eq_true, if_false, hnone]

/-- Witness for C5 amended: the owner updating the sample draft with an
empty payload and no version gets `MissingVersion` and no write occurs. -/
theorem missing_version_amended_witness :
    emptyUpdatePayload.version = none ∧
    (updateReportController [("r1", sampleDraft)] "r1" emptyUpdatePayload
        none user1 3).2 = [("r1", sampleDraft)] ∧
    (updateReportController [("r1", sampleDraft)] "r1" emptyUpdatePayload
        none user1 3).1 = .error .MissingVersion := by
  refine ⟨rfl, ?_, ?_⟩
  · exact (missing_version_amended [("r1", sampleDraft)] "r1"
      emptyUpdatePayload user1 3 rfl).1
  · exact (missing_version_amended [("r1", sampleDraft)] "r1"
      emptyUpdatePayload user1 3 rfl).2.2 sampleDraft (by decide) (by decide)
      (by decide)

/-- C6 (override authorization): a non-admin caller attempting to set
`budgetOverride = true` on a create, or on an update of an existing report,
always receives a 403 error — never `BudgetExceeded` — and no write occurs,
whatever the entries and cap involved.  (On the update path the 403 is the
ownership rejection when the caller is also not the owner, and the override
rejection otherwise; both precede the budget gate.) -/
theorem override_forbidden :
    (∀ (store : Store) (payload : CreatePayload) (user : UserCtx) (now : Nat)
        (newId : String),
      user.role ≠ .ADMIN → payload.budgetOverride = some true →
      (ownerIdOf payload user).isEmpty = false →
      ∃ e, (createReportController store payload user now newId).1 =
          .error e ∧
        statusCode e = 403 ∧ e ≠ .BudgetExceeded ∧
        (createReportController store payload user now newId).2 = store)
    ∧
    (∀ (store : Store) (id : String) (payload : UpdatePayload)
        (ifMatch : Option Nat) (user : UserCtx) (now : Nat)
        (existing : Report),
      findReport store id = some existing →
      user.role ≠ .ADMIN → payload.budgetOverride = some true →
      ∃ e, (updateReportController store id payload ifMatch user now).1 =
          .error e ∧
        statusCode e = 403 ∧ e ≠ .BudgetExceeded ∧
        (updateReportController store id payload ifMatch user now).2
          = store) := by
  constructor
  · intro store payload user now newId hrole hov howner
    have hr : user.role = Role.USER := by
      cases hu : user.role
      · rfl
      · exact absurd hu hrole
    unfold createReportController
    simp only [howner, Bool.false_eq_true, if_false]
    by_cases hself :
        (user.role == Role.USER && ownerIdOf payload user != user.id) = true
    · rw [if_pos hself]
      exact ⟨.ForbiddenSelfOnly, rfl, rfl, by decide, rfl⟩
    · rw [if_neg hself]
      have hcond :
          (payload.budgetOverride == some true && user.role != Role.ADMIN)
            = true := by
        rw [hov, hr]
        rfl
      rw [if_pos hcond]
      exact ⟨.ForbiddenOverride, rfl, rfl, by decide, rfl⟩
  · intro store id payload ifMatch user now existing hfind hrole hov
    have hr : user.role = Role.USER := by
      cases hu : user.role
      · rfl
      · exact absurd hu hrole
    unfold updateReportController
    simp only [hfind]
    by_cases hown :
        (user.role == Role.USER && existing.ownerId != user.id) = true
    · rw [if_pos hown]
      exact ⟨.ForbiddenNotOwner, rfl, rfl, by decide, rfl⟩
    · rw [if_neg hown]
      have hcond :
          (payload.budgetOverride == some true && user.role != Role.ADMIN)
            = true := by
        rw [hov, hr]
        rfl
      rw [if_pos hcond]
      exact ⟨.ForbiddenOverride, rfl, rfl, by decide, rfl⟩

/-- A non-admin create request asking for `budgetOverride = true` into
`SUBMITTED` state, with entries far over the cap. -/
def overrideCreatePayload : CreatePayload :=
  { title := "Big Spend"
    budgetCap := 10
    ownerId := none
    department := none
    entries := some [⟨"e9", none, 99999, none, none, none⟩]
    viewers := none
    status := some .SUBMITTED
    budgetOverride := some true }

/-- Witness for C6: the non-admin `user2` requesting `budgetOverride = true`
at creation receives a 403, not `BudgetExceeded`, and nothing is stored. -/
theorem override_forbidden_witness :
    user2.role ≠ Role.ADMIN ∧
    overrideCreatePayload.budgetOverride = some true ∧
    (ownerIdOf overrideCreatePayload user2).isEmpty = false ∧
    ∃ e, (createReportController [] overrideCreatePayload user2 0 "n1").1 =
        .error e ∧
      statusCode e = 403 ∧ e ≠ .BudgetExceeded ∧
      (createReportController [] overrideCreatePayload user2 0 "n1").2 = [] :=
  ⟨by decide, rfl, by decide,
    override_forbidden.1 [] overrideCreatePayload user2 0 "n1" (by decide)
      rfl (by decide)⟩

/-- Entry with amount 100 (no date). -/
def entryA : ReportEntry := ⟨"p1", none, 100, none, none, none⟩

/-- Entry with amount 500 (no date). -/
def entryB : ReportEntry := ⟨"p2", none, 500, none, none, none⟩

/-- Entry with amount 300 (no date). -/
def entryC : ReportEntry := ⟨"p3", none, 300, none, none, none⟩

/-- A report with entries `[100, 500, 300]` for the pagination scenario. -/
def paginReport : Report :=
  { sampleDraft with id := "r7", entries := [entryA, entryB, entryC] }

/-- C7 evidence: a view request carrying `offset=0, limit=2,
entriesSort=amount_desc` (the query-string interface the repository README
documents) returns ALL three entries — page 1 at the default size 25 —
because the controller stores the parsed numbers under the keys `offset`
and `limit` while `toReportView` reads `entriesPage` and `entriesSize`;
the pagination parameters are silently dropped instead of producing the
slice `[500, 300]` of length `limit`. -/
theorem pagination_query_dropped :
    (toReportView paginReport
        (viewOptionsFromQuery none false (some 0) (some 2)
          (some "amount_desc") none)).entriesField
      = some [entryB, entryC, entryA] ∧
    (toReportView paginReport
        (viewOptionsFromQuery none false (some 0) (some 2)
          (some "amount_desc") none)).paginationField
      = some ⟨1, 25, 3⟩ :=
  ⟨by decide, by decide⟩

/-- A stored report whose total (1700) exceeds its cap (1000) and whose
`budgetOverride` is `true`. -/
def overrideReport : Report :=
  { sampleDraft with id := "r8", budgetOverride := true }

/-- Counterexample to C8 as stated: on a report over its cap with
`budgetOverride = true`, the background metrics projection
(`updateReportView`) reports `isOverBudget = false`, so the flag does NOT
equal `totalAmount > budgetCap` there and IS suppressed by the override. -/
theorem override_flag_counterexample :
    computeTotalAmount overrideReport > overrideReport.budgetCap ∧
    overrideReport.budgetOverride = true ∧
    (updateReportViewMetrics overrideReport).isOverBudget = false :=
  ⟨by decide, rfl, by decide⟩

/-- C8 amended: the read-time view shaper `toReportView` computes
`isOverBudget = totalAmount > budgetCap` independently of the override (in
both compact and rich shapes), while the background worker
`updateReportView` computes `totalAmount > budgetCap && !budgetOverride`,
i.e. there the informational flag is suppressed by the override. -/
theorem override_flag_amended (r : Report) (opts : ViewOptions) (b : Bool) :
    (toReportView { r with budgetOverride := b } opts).overBudgetFlag
      = decide (computeTotalAmount r > r.budgetCap) ∧
    (updateReportViewMetrics { r with budgetOverride := b }).isOverBudget
      = (decide (computeTotalAmount r > r.budgetCap) && !b) := by
  constructor
  · unfold toReportView
    by_cases hc : opts.compact = true
    · rw [if_pos hc]
      rfl
    · rw [if_neg hc]
      rfl
  · rfl

/-- View options with an explicit empty `include` set (non-compact). -/
def includeNoneOpts : ViewOptions := ⟨some [], false, none, none, none, none⟩

/-- Counterexample to C9 as stated: with an empty `include` set the
`metrics` section is still present in the rich view, because the code
assigns `metrics` in the initial object literal and — unlike `entries`,
`comments` and `metadata` — never deletes it. -/
theorem include_sections_counterexample :
    (includeNoneOpts.includeSections.getD
        ["entries", "comments", "metadata", "metrics"]).contains "metrics"
      = false ∧
    includeNoneOpts.compact = false ∧
    (toReportView sampleDraft includeNoneOpts).metricsField ≠ none :=
  ⟨rfl, rfl, by decide⟩

/-- C9 amended: in the non-compact view, each of the sections `entries`,
`comments` and `metadata` is omitted (absent, not emptied) exactly when it
is not in the `include` set, while the `metrics` section is always present
regardless of the `include` set. -/
theorem include_sections_amended (r : Report) (opts : ViewOptions)
    (hc : opts.compact = false) :
    ((toReportView r opts).entriesField = none ↔
      (opts.includeSections.getD
        ["entries", "comments", "metadata", "metrics"]).contains "entries"
        = false) ∧
    ((toReportView r opts).commentsField = none ↔
      (opts.includeSections.getD
        ["entries", "comments", "metadata", "metrics"]).contains "comments"
        = false) ∧
    ((toReportView r opts).metadataField = none ↔
      (opts.includeSections.getD
        ["entries", "comments", "metadata", "metrics"]).contains "metadata"
        = false) ∧
    (toReportView r opts).metricsField ≠ none := by
  unfold toReportView
  simp only [hc, Bool.false_eq_true, if_false]
  refine ⟨?_, ?_, ?_, ?_⟩
  · simp only [ShapedView.entriesField]
    by_cases h : (opts.includeSections.getD
        ["entries", "comments", "metadata", "metrics"]).contains "entries"
        = true
    · rw [if_pos h, h]
      simp
    · rw [if_neg h]
      simp only [Bool.not_eq_true] at h
      rw [h]
      simp
  · simp only [ShapedView.commentsField]
    by_cases h : (opts.includeSections.getD
        ["entries", "comments", "metadata", "metrics"]).contains "comments"
        = true
    · rw [if_pos h, h]
      simp
    · rw [if_neg h]
      simp only [Bool.not_eq_true] at h
      rw [h]
      simp
  · simp only [ShapedView.metadataField]
    by_cases h : (opts.includeSections.getD
        ["entries", "comments", "metadata", "metrics"]).contains "metadata"
        = true
    · rw [if_pos h, h]
      simp
    · rw [if_neg h]
      simp only [Bool.not_eq_true] at h
      rw [h]
      simp
  · simp only [ShapedView.metricsField]
    simp

/-- Witness for C9 amended, at an `include` set containing only `entries`:
`entries` is present, `comments` and `metadata` are absent, `metrics` is
(still) present. -/
theorem include_sections_amended_witness :
    (⟨some ["entries"], false, none, none, none, none⟩ :
      ViewOptions).compact = false ∧
    ((toReportView sampleDraft
        ⟨some ["entries"], false, none, none, none, none⟩).entriesField
      = none ↔
      ((some ["entries"] : Option (List String)).getD
        ["entries", "comments", "metadata", "metrics"]).contains "entries"
        = false) ∧
    (toReportView sampleDraft
        ⟨some ["entries"], false, none, none, none, none⟩).metricsField
      ≠ none := by
  have h := include_sections_amended sampleDraft
    ⟨some ["entries"], false, none, none, none, none⟩ rfl
  exact ⟨rfl, h.1, h.2.2.2⟩

/-- C10: a repository update invoked without an `expectedVersion` — exactly
what the comment-append path does (and the attachment-append path, which
calls the same `repo.update(id, patch)` with no version) — skips the
version check entirely: for every stored report and every partial update
the write succeeds, whatever the stored version is, and the version is
still incremented by one, so these mutations carry no optimistic
concurrency protection. -/
theorem comment_paths_skip_version_check :
    (∀ (store : Store) (id : String) (u : ReportPatch) (now : Nat)
        (existing : Report),
      findReport store id = some existing →
      repoUpdate store id u none now =
        (.ok (mergeReport existing u now),
          setReport store id (mergeReport existing u now)) ∧
      (mergeReport existing u now).version = existing.version + 1)
    ∧
    (∀ (store : Store) (id : String) (text : String)
        (prio : Option Priority) (user : UserCtx) (now : Nat) (cid : String)
        (existing : Report),
      findReport store id = some existing →
      text.isEmpty = false →
      (user.role == Role.ADMIN || existing.ownerId == user.id ||
        (existing.viewers.getD []).any (fun v => v.userId == user.id &&
          (v.access == Access.COMMENT || v.access == Access.EDIT))) = true →
      ∃ r, (addCommentController store id text prio user now cid).1 =
          .ok r ∧
        r.version = existing.version + 1) := by
  constructor
  · intro store id u now existing hfind
    exact ⟨repoUpdate_noVersionCheck store id u now existing hfind, rfl⟩
  · intro store id text prio user now cid existing hfind htext hallowed
    unfold addCommentController
    rw [if_neg (by simp [htext])]
    simp only [hfind]
    rw [if_neg (by simp [hallowed])]
    rw [repoUpdate_noVersionCheck store id _ now existing hfind]
    exact ⟨_, rfl, rfl⟩

/-- Witness for C10: the owner appends a comment to the draft stored at
version 2 with no version supplied; the write succeeds and stores
version 3. -/
theorem comment_paths_skip_version_check_witness :
    findReport [("r2", sampleDraftV2)] "r2" = some sampleDraftV2 ∧
    ("hi" : String).isEmpty = false ∧
    (user1.role == Role.ADMIN || sampleDraftV2.ownerId == user1.id ||
      (sampleDraftV2.viewers.getD []).any (fun v => v.userId == user1.id &&
        (v.access == Access.COMMENT || v.access == Access.EDIT))) = true ∧
    ∃ r, (addCommentController [("r2", sampleDraftV2)] "r2" "hi" none user1
        4 "c1").1 = .ok r ∧
      r.version = sampleDraftV2.version + 1 :=
  ⟨by decide, by decide, by decide,
    comment_paths_skip_version_check.2 [("r2", sampleDraftV2)] "r2" "hi"
      none user1 4 "c1" sampleDraftV2 (by decide) (by decide) (by decide)⟩
